import Mathlib

/-!
Shallow embedding of `src/src/memory/mmu.rs` (and the opcode-facing parts of
`src/src/cpu/instructions/mod.rs`) from the `gbemulator` repository.

Machine integers are modelled as `Nat`: a `u8` is a `Nat` assumed (or proved)
to be below 256 and a `u16` a `Nat` below 65536; the only arithmetic the Rust
code performs on addresses that can overflow is `address + 1` in
`read_word` / `write_word` / `read_opcode`, modelled as `(address + 1) % 65536`
(release-mode wrapping of `u16`), and the `as u8` / `>> 8` conversions in
`write_word`, modelled as `% 256` / `/ 256`. The fixed byte arrays of the
`Mmu` struct are modelled as total functions `Nat → Nat` from the array index;
every index the routed ranges produce is within the Rust array bounds, so
nothing is lost. A Rust `panic!` is modelled by returning `none`.
-/

/-- The `Cartridge` collaborator (external to the verified core, spec §6):
a read-only byte store exposing `read(address) -> byte`. -/
structure Cartridge where
  read : Nat → Nat

/-- Modelled from the spec: the `Gpu` collaborator is not under `src/`.
Spec §6 describes it as a byte-addressable register/memory surface with
`write_vram`/`read_vram`, `write_oam`/`read_oam`, `write_lcdc`, `set_bgpal`,
and byte-valued readable fields `lcdc`, `scroll_x`, `scroll_y`,
`current_scanline`.  `vram` and `oam` are modelled as byte stores keyed by
the address the bus passes in, with writes visible to later reads. -/
structure Gpu where
  vram : Nat → Nat
  oam : Nat → Nat
  lcdc : Nat
  scroll_x : Nat
  scroll_y : Nat
  current_scanline : Nat
  bgpal : Nat

/-- Modelled from the spec: `Gpu::write_vram` stores the byte at the address. -/
def Gpu.write_vram (g : Gpu) (address value : Nat) : Gpu :=
  { g with vram := fun a => if a = address then value else g.vram a }

/-- Modelled from the spec: `Gpu::read_vram` reads the byte at the address. -/
def Gpu.read_vram (g : Gpu) (address : Nat) : Nat :=
  g.vram address

/-- Modelled from the spec: `Gpu::write_oam` stores the byte at the address. -/
def Gpu.write_oam (g : Gpu) (address value : Nat) : Gpu :=
  { g with oam := fun a => if a = address then value else g.oam a }

/-- Modelled from the spec: `Gpu::read_oam` reads the byte at the address. -/
def Gpu.read_oam (g : Gpu) (address : Nat) : Nat :=
  g.oam address

/-- Modelled from the spec: `Gpu::write_lcdc` sets the `lcdc` field. -/
def Gpu.write_lcdc (g : Gpu) (value : Nat) : Gpu :=
  { g with lcdc := value }

/-- Modelled from the spec: `Gpu::set_bgpal` sets the background palette. -/
def Gpu.set_bgpal (g : Gpu) (value : Nat) : Gpu :=
  { g with bgpal := value }

/-- The `Mmu` struct of `mmu.rs` (lines 29–43).  The borrow structure of the
Rust (`&Cartridge`, `&mut Gpu`) is flattened into plain fields: the bus is the
sole mutator of the GPU, so carrying the `Gpu` by value is faithful. -/
structure Mmu where
  cartridge : Cartridge
  gpu : Gpu
  bios : Option Cartridge
  ext_ram : Nat → Nat
  w_ram : Nat → Nat
  echo_ram : Nat → Nat
  h_ram : Nat → Nat
  io : Nat → Nat
  interrupts_enabled : Nat
  interrupt_flags : Nat
  is_booted : Bool
  keypad : Nat

/-- `Mmu::new` (mmu.rs lines 46–66): all RAM regions zero-initialised,
`is_booted` false, `keypad` 0xFF. -/
def Mmu.new (cartridge : Cartridge) (gpu : Gpu) (bios : Option Cartridge) : Mmu :=
  { cartridge := cartridge
    gpu := gpu
    bios := bios
    ext_ram := fun _ => 0
    w_ram := fun _ => 0
    echo_ram := fun _ => 0
    h_ram := fun _ => 0
    io := fun _ => 0
    interrupts_enabled := 0
    interrupt_flags := 0
    is_booted := false
    keypad := 0xFF }

/-- `Mmu::read` (mmu.rs lines 143–198).  The Rust `match` arms are translated
in source order into an if-chain (the named constants are inlined:
`INTERRUPT_FLAGS_ADDRESS` = 0xFF0F, `USER_PROGRAM_AREA_ADDRESS` = 0x100,
`VRAM_ADDRESS` = 0x8000, `EXT_RAM_ADDRESS` = 0xA000, `W_RAM_ADDRESS` = 0xC000,
`ECHO_RAM_ADDRESS` = 0xE000, `OAM_ADDRESS` = 0xFE00, `IO_ADDRESS` = 0xFF00,
`H_RAM_ADDR` = 0xFF80, `INTERRUPT_ENABLE_ADDRESS` = 0xFFFF).  The
`panic!("BIOS has to be present ...")` in the boot-overlay branch is `none`. -/
def Mmu.read (m : Mmu) (address : Nat) : Option Nat :=
  if address = 0xFF0F then some m.interrupt_flags
  else if address ≤ 0xFF then
    if !m.is_booted then
      match m.bios with
      | some bios_cartridge => some (bios_cartridge.read address)
      | none => none
    else some (m.cartridge.read address)
  else if 0x100 ≤ address ∧ address ≤ 0x7FFF then some (m.cartridge.read address)
  else if 0x8000 ≤ address ∧ address ≤ 0x9FFF then some (m.gpu.read_vram address)
  else if 0xA000 ≤ address ∧ address ≤ 0xBFFF then some (m.ext_ram (address - 0xA000))
  else if 0xC000 ≤ address ∧ address ≤ 0xDFFF then some (m.w_ram (address - 0xC000))
  else if 0xE000 ≤ address ∧ address ≤ 0xFDFE then some (m.echo_ram (address - 0xE000))
  else if 0xFE00 ≤ address ∧ address ≤ 0xFE9E then some (m.gpu.read_oam address)
  else if 0xFEA0 ≤ address ∧ address ≤ 0xFEFE then some 0
  else if 0xFF00 ≤ address ∧ address ≤ 0xFF7E then
    if address = 0xFF00 then some 0xFF
    else if address = 0xFF40 then some m.gpu.lcdc
    else if address = 0xFF42 then some m.gpu.scroll_y
    else if address = 0xFF43 then some m.gpu.scroll_x
    else if address = 0xFF44 then some m.gpu.current_scanline
    else some (m.io (address - 0xFF00))
  else if 0xFF80 ≤ address ∧ address ≤ 0xFFFD then some (m.h_ram (address - 0xFF80))
  else if address = 0xFFFF then some m.interrupts_enabled
  else some 0

/-- One iteration of the `for offset in 0..160` loop of `Mmu::dma_transfer`
(mmu.rs lines 130–133): read one byte through the generic bus read path at
`start_address + offset` and write it through the GPU's OAM writer at
`OAM_ADDRESS + offset`; a failed (panicking) read aborts the transfer. -/
def dmaStep (start_address : Nat) (acc : Option Mmu) (offset : Nat) : Option Mmu :=
  acc.bind fun mm =>
    (mm.read (start_address + offset)).map fun b =>
      { mm with gpu := mm.gpu.write_oam (0xFE00 + offset) b }

/-- `Mmu::dma_transfer` (mmu.rs lines 122–136):
`start_address = (source_address as u16) << 8`, i.e. `source_address * 256`
for a byte-valued source, then the 160-step copy loop. -/
def Mmu.dma_transfer (m : Mmu) (source_address : Nat) : Option Mmu :=
  (List.range 160).foldl (dmaStep (source_address * 256)) (some m)

/-- The body of the `IO_ADDRESS..=0xFF7E` write arm of `Mmu::write`
(mmu.rs lines 88–115): the sequential `if address == …` taps (keypad 0xFF00,
LCDC 0xFF40, scroll-Y 0xFF42, scroll-X 0xFF43, background palette
`BG_PAL_ADDR` = 0xFF47, DMA trigger 0xFF46) threaded in source order, followed
by the unconditional store of the raw byte into the generic `io` block. -/
def Mmu.io_write (m : Mmu) (address value : Nat) : Option Mmu :=
  let m1 := if address = 0xFF00 then { m with keypad := value } else m
  let m2 := if address = 0xFF40 then { m1 with gpu := m1.gpu.write_lcdc value } else m1
  let m3 := if address = 0xFF42 then { m2 with gpu := { m2.gpu with scroll_y := value } } else m2
  let m4 := if address = 0xFF43 then { m3 with gpu := { m3.gpu with scroll_x := value } } else m3
  let m5 := if address = 0xFF47 then { m4 with gpu := m4.gpu.set_bgpal value } else m4
  let m6 := if address = 0xFF46 then m5.dma_transfer value else some m5
  m6.map fun mm => { mm with io := fun i => if i = address - 0xFF00 then value else mm.io i }

/-- `Mmu::write` (mmu.rs lines 68–120), arms in source order; constants
inlined as in `Mmu.read`.  The final catch-all arm drops the write. -/
def Mmu.write (m : Mmu) (address value : Nat) : Option Mmu :=
  if address = 0xFF50 then some { m with is_booted := true }
  else if address = 0xFF0F then some { m with interrupt_flags := value }
  else if 0x8000 ≤ address ∧ address ≤ 0x9FFF then
    some { m with gpu := m.gpu.write_vram address value }
  else if 0xA000 ≤ address ∧ address ≤ 0xBFFF then
    some { m with ext_ram := fun i => if i = address - 0xA000 then value else m.ext_ram i }
  else if 0xC000 ≤ address ∧ address ≤ 0xDFFF then
    some { m with w_ram := fun i => if i = address - 0xC000 then value else m.w_ram i }
  else if 0xE000 ≤ address ∧ address ≤ 0xFDFE then
    some { m with echo_ram := fun i => if i = address - 0xE000 then value else m.echo_ram i }
  else if 0xFE00 ≤ address ∧ address ≤ 0xFE9E then
    some { m with gpu := m.gpu.write_oam address value }
  else if 0xFF00 ≤ address ∧ address ≤ 0xFF7E then m.io_write address value
  else if 0xFF80 ≤ address ∧ address ≤ 0xFFFD then
    some { m with h_ram := fun i => if i = address - 0xFF80 then value else m.h_ram i }
  else if address = 0xFFFF then some { m with interrupts_enabled := value }
  else some m

/-- `Mmu::write_word` (mmu.rs lines 138–141): two sequential byte writes,
`(value >> 8) as u8` (the high byte) at `address` first, then `value as u8`
(the low byte) at `address + 1`. -/
def Mmu.write_word (m : Mmu) (address value : Nat) : Option Mmu :=
  (m.write address (value / 256 % 256)).bind fun m1 =>
    m1.write ((address + 1) % 65536) (value % 256)

/-- Modelled from the spec: `util::binary::bytes_to_word`
(`src/util/binary.rs`) is not under `src/`.  Its behaviour is pinned by the
spec's round-trip property (§8: "writing 16-bit value W at A then reading a
16-bit value at A returns W") together with `Mmu::write_word` in `src`, which
stores the high byte at A and the low byte at A+1: the first argument (the
byte at the lower address) must be the high byte, so
`bytes_to_word b1 b2 = b1 * 256 + b2`.  The in-`src` caller `read_hl_addr`
(`src/src/cpu/instructions/mod.rs`), which forms the HL register-pair address
as `bytes_to_word(h, l)` with `h` the high register, agrees. -/
def bytes_to_word (b1 b2 : Nat) : Nat :=
  b1 * 256 + b2

/-- `Mmu::read_word` (mmu.rs lines 200–202):
`bytes_to_word(self.read(address), self.read(address + 1))`. -/
def Mmu.read_word (m : Mmu) (address : Nat) : Option Nat :=
  (m.read address).bind fun b1 =>
    (m.read ((address + 1) % 65536)).map fun b2 => bytes_to_word b1 b2

/-- The `Opcode` enum of mmu.rs (lines 24–27). -/
inductive Opcode where
  | Regular : Nat → Opcode
  | CB : Nat → Opcode
deriving DecidableEq

/-- `Mmu::read_opcode` (mmu.rs lines 204–211). -/
def Mmu.read_opcode (m : Mmu) (pc : Nat) : Option Opcode :=
  (m.read pc).bind fun op_code =>
    if op_code = 0xCB then (m.read ((pc + 1) % 65536)).map Opcode.CB
    else some (Opcode.Regular op_code)

/-- A finite sequence of byte writes driven through the bus, used to state
session-lifetime invariants ("after any sequence of bus operations"): reads
do not mutate the bus and `write_word` is by definition the composition of
two byte writes, so byte writes generate every state change. -/
def Mmu.writes (m : Mmu) : List (Nat × Nat) → Option Mmu
  | [] => some m
  | (a, v) :: rest => (m.write a v).bind fun m' => m'.writes rest

/-! ### Helper lemmas: routing of single ranges -/

/-- Reads in the working-RAM range come from `w_ram`. -/
lemma Mmu.read_wram (m : Mmu) (a : Nat) (h1 : 0xC000 ≤ a) (h2 : a ≤ 0xDFFF) :
    m.read a = some (m.w_ram (a - 0xC000)) := by
  unfold Mmu.read
  rw [if_neg (by omega), if_neg (by omega), if_neg (by omega), if_neg (by omega),
    if_neg (by omega), if_pos (by omega)]

/-- Reads in the video-RAM range come from the GPU's VRAM. -/
lemma Mmu.read_vram_range (m : Mmu) (a : Nat) (h1 : 0x8000 ≤ a) (h2 : a ≤ 0x9FFF) :
    m.read a = some (m.gpu.vram a) := by
  unfold Mmu.read Gpu.read_vram
  rw [if_neg (by omega), if_neg (by omega), if_neg (by omega), if_pos (by omega)]

/-- Writes in the working-RAM range update `w_ram` at the range offset. -/
lemma Mmu.write_wram (m : Mmu) (a v : Nat) (h1 : 0xC000 ≤ a) (h2 : a ≤ 0xDFFF) :
    m.write a v =
      some { m with w_ram := fun i => if i = a - 0xC000 then v else m.w_ram i } := by
  unfold Mmu.write
  rw [if_neg (by omega), if_neg (by omega), if_neg (by omega), if_neg (by omega),
    if_pos (by omega)]

/-- Reads at low addresses with the boot latch set come from the cartridge. -/
lemma Mmu.read_low_booted (m : Mmu) (a : Nat) (ha : a ≤ 0xFF)
    (hb : m.is_booted = true) : m.read a = some (m.cartridge.read a) := by
  unfold Mmu.read
  rw [if_neg (by omega), if_pos ha, hb]
  simp

/-- Reads at low addresses before boot come from the BIOS store when present. -/
lemma Mmu.read_low_bios (m : Mmu) (a : Nat) (bc : Cartridge) (ha : a ≤ 0xFF)
    (hb : m.is_booted = false) (hbios : m.bios = some bc) :
    m.read a = some (bc.read a) := by
  unfold Mmu.read
  rw [if_neg (by omega), if_pos ha, hb, hbios]
  simp

/-- Reads at low addresses before boot with no BIOS store panic (`none`). -/
lemma Mmu.read_low_panic (m : Mmu) (a : Nat) (ha : a ≤ 0xFF)
    (hb : m.is_booted = false) (hbios : m.bios = none) : m.read a = none := by
  unfold Mmu.read
  rw [if_neg (by omega), if_pos ha, hb, hbios]
  simp

/-- An if-then-else of two defined option values is defined. -/
lemma isSome_ite_of {α : Type} {c : Prop} [Decidable c] {x y : Option α}
    (hx : x.isSome) (hy : y.isSome) : (if c then x else y).isSome := by
  by_cases h : c
  · rwa [if_pos h]
  · rwa [if_neg h]

/-- When the boot latch is set or a BIOS store is present, `read` never
panics: every byte read yields a value. -/
lemma Mmu.read_isSome (m : Mmu) (hb : m.is_booted = true ∨ m.bios.isSome)
    (a : Nat) : (m.read a).isSome := by
  by_cases h1 : a = 0xFF0F
  · rw [Mmu.read, if_pos h1]; rfl
  by_cases h2 : a ≤ 0xFF
  · rw [Mmu.read, if_neg h1, if_pos h2]
    rcases hb with hb | hb
    · rw [hb]; rfl
    · obtain ⟨bc, hbc⟩ := Option.isSome_iff_exists.mp hb
      rw [hbc]
      cases hB : m.is_booted <;> rfl
  · rw [Mmu.read, if_neg h1, if_neg h2]
    repeat' first | rfl | refine isSome_ite_of ?_ ?_

/-- Forget the OAM contents of a bus state: two states with the same erasure
differ at most in `gpu.oam`. -/
def eraseOam (m : Mmu) : Mmu :=
  { m with gpu := { m.gpu with oam := fun _ => 0 } }

/-- Reads at addresses outside the OAM routing range 0xFE00–0xFE9E do not
depend on the OAM contents. -/
lemma Mmu.read_congr_oam (mA mB : Mmu) (h : eraseOam mA = eraseOam mB) (a : Nat)
    (ha : a < 0xFE00 ∨ 0xFE9E < a) : mA.read a = mB.read a := by
  have hca : mA.cartridge = mB.cartridge := by have hh := congrArg Mmu.cartridge h; exact hh
  have hbi : mA.bios = mB.bios := by have hh := congrArg Mmu.bios h; exact hh
  have hex : mA.ext_ram = mB.ext_ram := by have hh := congrArg Mmu.ext_ram h; exact hh
  have hwr : mA.w_ram = mB.w_ram := by have hh := congrArg Mmu.w_ram h; exact hh
  have hec : mA.echo_ram = mB.echo_ram := by have hh := congrArg Mmu.echo_ram h; exact hh
  have hhr : mA.h_ram = mB.h_ram := by have hh := congrArg Mmu.h_ram h; exact hh
  have hio : mA.io = mB.io := by have hh := congrArg Mmu.io h; exact hh
  have hie : mA.interrupts_enabled = mB.interrupts_enabled := by have hh := congrArg Mmu.interrupts_enabled h; exact hh
  have hif : mA.interrupt_flags = mB.interrupt_flags := by have hh := congrArg Mmu.interrupt_flags h; exact hh
  have hbo : mA.is_booted = mB.is_booted := by have hh := congrArg Mmu.is_booted h; exact hh
  have hgv : mA.gpu.vram = mB.gpu.vram := by have hh := congrArg (fun x => x.gpu.vram) h; exact hh
  have hgl : mA.gpu.lcdc = mB.gpu.lcdc := by have hh := congrArg (fun x => x.gpu.lcdc) h; exact hh
  have hgy : mA.gpu.scroll_y = mB.gpu.scroll_y := by have hh := congrArg (fun x => x.gpu.scroll_y) h; exact hh
  have hgx : mA.gpu.scroll_x = mB.gpu.scroll_x := by have hh := congrArg (fun x => x.gpu.scroll_x) h; exact hh
  have hgc : mA.gpu.current_scanline = mB.gpu.current_scanline := by have hh := congrArg (fun x => x.gpu.current_scanline) h; exact hh
  by_cases h1 : a = 0xFF0F
  · rw [Mmu.read, Mmu.read, if_pos h1, if_pos h1, hif]
  by_cases h2 : a ≤ 0xFF
  · rw [Mmu.read, Mmu.read, if_neg h1, if_neg h1, if_pos h2, if_pos h2, hca, hbi, hbo]
  rw [Mmu.read, Mmu.read, if_neg h1, if_neg h1, if_neg h2, if_neg h2]
  by_cases h3 : 0x100 ≤ a ∧ a ≤ 0x7FFF
  · rw [if_pos h3, if_pos h3, hca]
  rw [if_neg h3, if_neg h3]
  by_cases h4 : 0x8000 ≤ a ∧ a ≤ 0x9FFF
  · rw [if_pos h4, if_pos h4]
    unfold Gpu.read_vram
    rw [hgv]
  rw [if_neg h4, if_neg h4]
  by_cases h5 : 0xA000 ≤ a ∧ a ≤ 0xBFFF
  · rw [if_pos h5, if_pos h5, hex]
  rw [if_neg h5, if_neg h5]
  by_cases h6 : 0xC000 ≤ a ∧ a ≤ 0xDFFF
  · rw [if_pos h6, if_pos h6, hwr]
  rw [if_neg h6, if_neg h6]
  by_cases h7 : 0xE000 ≤ a ∧ a ≤ 0xFDFE
  · rw [if_pos h7, if_pos h7, hec]
  rw [if_neg h7, if_neg h7]
  have h8 : ¬(0xFE00 ≤ a ∧ a ≤ 0xFE9E) := by rcases ha with ha | ha <;> omega
  rw [if_neg h8, if_neg h8]
  by_cases h9 : 0xFEA0 ≤ a ∧ a ≤ 0xFEFE
  · rw [if_pos h9, if_pos h9]
  rw [if_neg h9, if_neg h9]
  by_cases h10 : 0xFF00 ≤ a ∧ a ≤ 0xFF7E
  · rw [if_pos h10, if_pos h10, hgl, hgy, hgx, hgc, hio]
  rw [if_neg h10, if_neg h10]
  by_cases h11 : 0xFF80 ≤ a ∧ a ≤ 0xFFFD
  · rw [if_pos h11, if_pos h11, hhr]
  rw [if_neg h11, if_neg h11]
  by_cases h12 : a = 0xFFFF
  · rw [if_pos h12, if_pos h12, hie]
  rw [if_neg h12, if_neg h12]

/-- A failed read propagates: folding the DMA step from `none` stays `none`. -/
lemma dmaStep_foldl_none (start : Nat) (l : List Nat) :
    l.foldl (dmaStep start) none = none := by
  induction l with
  | nil => rfl
  | cons x xs ih => simpa [dmaStep] using ih

/-- Erasing OAM commutes with the DMA step's OAM write: each loop iteration
changes the bus state only in `gpu.oam`. -/
lemma eraseOam_write_oam (mm : Mmu) (x b : Nat) :
    eraseOam { mm with gpu := mm.gpu.write_oam x b } = eraseOam mm := rfl

/-- Invariant of the DMA copy loop: after `k` iterations the loop has
succeeded, changed nothing but OAM, written the bytes read (in the original
state) from `start+0 … start+(k-1)` to OAM `0xFE00+0 … 0xFE00+(k-1)`, and
left every other OAM cell alone.  Requires the source range to avoid the
OAM routing range and all source reads to succeed. -/
lemma dmaStep_foldl_spec (start : Nat) (m : Mmu)
    (hsrc : ∀ off, off < 160 → (start + off < 0xFE00 ∨ 0xFE9E < start + off))
    (hok : ∀ off, off < 160 → (m.read (start + off)).isSome) :
    ∀ k, k ≤ 160 →
      ∃ mk, (List.range k).foldl (dmaStep start) (some m) = some mk
        ∧ eraseOam mk = eraseOam m
        ∧ (∀ off, off < k → some (mk.gpu.oam (0xFE00 + off)) = m.read (start + off))
        ∧ (∀ x, x < 0xFE00 ∨ 0xFE00 + k ≤ x → mk.gpu.oam x = m.gpu.oam x) := by
  intro k
  induction k with
  | zero =>
    intro _
    exact ⟨m, rfl, rfl, fun off hoff => absurd hoff (by omega), fun x _ => rfl⟩
  | succ k ih =>
    intro hk
    obtain ⟨mk, hfold, herase, hcopied, hrest⟩ := ih (by omega)
    have hread : mk.read (start + k) = m.read (start + k) :=
      Mmu.read_congr_oam mk m herase (start + k) (hsrc k (by omega))
    have hsome : (m.read (start + k)).isSome := hok k (by omega)
    obtain ⟨b, hb⟩ := Option.isSome_iff_exists.mp hsome
    refine ⟨{ mk with gpu := mk.gpu.write_oam (0xFE00 + k) b }, ?_, ?_, ?_, ?_⟩
    · rw [List.range_succ, List.foldl_append, hfold]
      simp only [List.foldl_cons, List.foldl_nil]
      show (mk.read (start + k)).map _ = _
      rw [hread, hb]
      rfl
    · rw [eraseOam_write_oam, herase]
    · intro off hoff
      show some (if 0xFE00 + off = 0xFE00 + k then b else mk.gpu.oam (0xFE00 + off)) = _
      by_cases hoffk : off = k
      · subst hoffk
        rw [if_pos rfl]
        exact hb.symm
      · rw [if_neg (by omega)]
        exact hcopied off (by omega)
    · intro x hx
      show (if x = 0xFE00 + k then b else mk.gpu.oam x) = m.gpu.oam x
      rcases hx with hx | hx
      · rw [if_neg (by omega)]
        exact hrest x (by omega)
      · rw [if_neg (by omega)]
        exact hrest x (by omega)

/-- `dma_transfer` with a source range disjoint from the OAM routing range
and panic-free reads: it succeeds, touches only OAM, and ends with OAM cell
`0xFE00+off` holding the byte the bus read at `source*256+off`. -/
lemma Mmu.dma_transfer_spec (m : Mmu) (v : Nat)
    (hsrc : ∀ off, off < 160 → (v * 256 + off < 0xFE00 ∨ 0xFE9E < v * 256 + off))
    (hok : ∀ off, off < 160 → (m.read (v * 256 + off)).isSome) :
    ∃ mt, m.dma_transfer v = some mt
      ∧ eraseOam mt = eraseOam m
      ∧ (∀ off, off < 160 → some (mt.gpu.oam (0xFE00 + off)) = m.read (v * 256 + off)) := by
  obtain ⟨mt, hfold, herase, hcopied, _⟩ :=
    dmaStep_foldl_spec (v * 256) m hsrc hok 160 (by omega)
  exact ⟨mt, hfold, herase, hcopied⟩

/-- Writing to the DMA trigger address runs the transfer and then stores the
raw byte in the `io` block at offset 0x46. -/
lemma Mmu.write_ff46 (m : Mmu) (v : Nat) :
    m.write 0xFF46 v =
      (m.dma_transfer v).map fun mm =>
        { mm with io := fun i => if i = 0x46 then v else mm.io i } := rfl

/-- The DMA loop, wherever it succeeds, preserves everything but OAM. -/
lemma dmaStep_foldl_erase (start : Nat) :
    ∀ (l : List Nat) (ma mk : Mmu),
      l.foldl (dmaStep start) (some ma) = some mk → eraseOam mk = eraseOam ma := by
  intro l
  induction l with
  | nil =>
    intro ma mk h
    cases h
    rfl
  | cons x xs ih =>
    intro ma mk h
    rw [List.foldl_cons] at h
    cases hr : ma.read (start + x) with
    | none =>
      rw [show dmaStep start (some ma) x = none by
        show (ma.read (start + x)).map _ = none
        rw [hr]; rfl] at h
      rw [dmaStep_foldl_none] at h
      cases h
    | some b =>
      rw [show dmaStep start (some ma) x =
          some { ma with gpu := ma.gpu.write_oam (0xFE00 + x) b } by
        show (ma.read (start + x)).map _ = _
        rw [hr]; rfl] at h
      rw [ih _ _ h]
      rfl

/-- `dma_transfer`, wherever it succeeds, preserves everything but OAM. -/
lemma Mmu.dma_transfer_erase (m mt : Mmu) (v : Nat)
    (h : m.dma_transfer v = some mt) : eraseOam mt = eraseOam m :=
  dmaStep_foldl_erase (v * 256) (List.range 160) m mt h

/-- Effect of one byte write on the boot latch: a write to 0xFF50 sets it,
every other write (including a DMA-triggering one) leaves it alone; the
cartridge and BIOS references never change. -/
lemma Mmu.write_step (m : Mmu) (a v : Nat) (m' : Mmu) (h : m.write a v = some m') :
    m'.is_booted = (if a = 0xFF50 then true else m.is_booted)
      ∧ m'.cartridge = m.cartridge ∧ m'.bios = m.bios := by
  unfold Mmu.write at h
  by_cases c1 : a = 0xFF50
  · rw [if_pos c1] at h
    injection h with h
    subst h
    rw [if_pos c1]
    exact ⟨rfl, rfl, rfl⟩
  rw [if_neg c1] at h
  rw [if_neg c1]
  by_cases c2 : a = 0xFF0F
  · rw [if_pos c2] at h; injection h with h; subst h; exact ⟨rfl, rfl, rfl⟩
  rw [if_neg c2] at h
  by_cases c3 : 0x8000 ≤ a ∧ a ≤ 0x9FFF
  · rw [if_pos c3] at h; injection h with h; subst h; exact ⟨rfl, rfl, rfl⟩
  rw [if_neg c3] at h
  by_cases c4 : 0xA000 ≤ a ∧ a ≤ 0xBFFF
  · rw [if_pos c4] at h; injection h with h; subst h; exact ⟨rfl, rfl, rfl⟩
  rw [if_neg c4] at h
  by_cases c5 : 0xC000 ≤ a ∧ a ≤ 0xDFFF
  · rw [if_pos c5] at h; injection h with h; subst h; exact ⟨rfl, rfl, rfl⟩
  rw [if_neg c5] at h
  by_cases c6 : 0xE000 ≤ a ∧ a ≤ 0xFDFE
  · rw [if_pos c6] at h; injection h with h; subst h; exact ⟨rfl, rfl, rfl⟩
  rw [if_neg c6] at h
  by_cases c7 : 0xFE00 ≤ a ∧ a ≤ 0xFE9E
  · rw [if_pos c7] at h; injection h with h; subst h; exact ⟨rfl, rfl, rfl⟩
  rw [if_neg c7] at h
  by_cases c8 : 0xFF00 ≤ a ∧ a ≤ 0xFF7E
  · rw [if_pos c8] at h
    by_cases b46 : a = 0xFF46
    · subst b46
      rw [show m.io_write 0xFF46 v =
          (m.dma_transfer v).map
            (fun mm => { mm with io := fun i => if i = 0x46 then v else mm.io i })
          from rfl] at h
      obtain ⟨mm, hdma, hfm⟩ := Option.map_eq_some'.mp h
      have he := Mmu.dma_transfer_erase m mm v hdma
      subst hfm
      refine ⟨?_, ?_, ?_⟩
      · have hh := congrArg Mmu.is_booted he; exact hh
      · have hh := congrArg Mmu.cartridge he; exact hh
      · have hh := congrArg Mmu.bios he; exact hh
    unfold Mmu.io_write at h
    by_cases b0 : a = 0xFF00
    · subst b0; injection h with h; subst h; exact ⟨rfl, rfl, rfl⟩
    by_cases b40 : a = 0xFF40
    · subst b40; injection h with h; subst h; exact ⟨rfl, rfl, rfl⟩
    by_cases b42 : a = 0xFF42
    · subst b42; injection h with h; subst h; exact ⟨rfl, rfl, rfl⟩
    by_cases b43 : a = 0xFF43
    · subst b43; injection h with h; subst h; exact ⟨rfl, rfl, rfl⟩
    by_cases b47 : a = 0xFF47
    · subst b47; injection h with h; subst h; exact ⟨rfl, rfl, rfl⟩
    simp only [if_neg b0, if_neg b40, if_neg b42, if_neg b43, if_neg b47, if_neg b46] at h
    injection h with h
    subst h
    exact ⟨rfl, rfl, rfl⟩
  rw [if_neg c8] at h
  by_cases c9 : 0xFF80 ≤ a ∧ a ≤ 0xFFFD
  · rw [if_pos c9] at h; injection h with h; subst h; exact ⟨rfl, rfl, rfl⟩
  rw [if_neg c9] at h
  by_cases c10 : a = 0xFFFF
  · rw [if_pos c10] at h; injection h with h; subst h; exact ⟨rfl, rfl, rfl⟩
  rw [if_neg c10] at h
  injection h with h
  subst h
  exact ⟨rfl, rfl, rfl⟩

/-- Effect of a sequence of byte writes on the boot latch: it ends up set
exactly when it started set or some write in the sequence targeted 0xFF50;
cartridge and BIOS references are untouched. -/
lemma Mmu.writes_step (ops : List (Nat × Nat)) :
    ∀ (m m' : Mmu), m.writes ops = some m' →
      m'.is_booted = (m.is_booted || ops.any fun p => p.1 == 0xFF50)
        ∧ m'.cartridge = m.cartridge ∧ m'.bios = m.bios := by
  induction ops with
  | nil =>
    intro m m' h
    injection h with h
    subst h
    rw [List.any_nil, Bool.or_false]
    exact ⟨rfl, rfl, rfl⟩
  | cons p rest ih =>
    intro m m' h
    obtain ⟨a, v⟩ := p
    rw [show Mmu.writes m ((a, v) :: rest) = (m.write a v).bind fun mx => mx.writes rest
      from rfl] at h
    cases hw : m.write a v with
    | none => rw [hw] at h; cases h
    | some mx =>
      rw [hw] at h
      rw [show (some mx).bind (fun my => my.writes rest) = mx.writes rest from rfl] at h
      have hstep := Mmu.write_step m a v mx hw
      have hrest := ih mx m' h
      refine ⟨?_, hrest.2.1.trans hstep.2.1, hrest.2.2.trans hstep.2.2⟩
      rw [hrest.1, hstep.1, List.any_cons]
      by_cases ha : a = 0xFF50
      · subst ha
        rw [if_pos rfl]
        simp
      · rw [if_neg ha]
        have hbeq : ((a, v).1 == 0xFF50) = false := by
          simp only [beq_eq_false_iff_ne, ne_eq]
          exact ha
        rw [hbeq, Bool.false_or]

/-- A concrete cartridge whose every byte is 7, for concrete witnesses. -/
def cart0 : Cartridge := { read := fun _ => 7 }

/-- A concrete BIOS store whose every byte is 3, for concrete witnesses. -/
def bios0 : Cartridge := { read := fun _ => 3 }

/-- A concrete all-zero GPU, for concrete witnesses. -/
def gpu0 : Gpu :=
  { vram := fun _ => 0, oam := fun _ => 0, lcdc := 0, scroll_x := 0,
    scroll_y := 0, current_scanline := 0, bgpal := 0 }

/-- A freshly constructed bus with a BIOS store present. -/
def mmuA : Mmu := Mmu.new cart0 gpu0 (some bios0)

/-- `mmuA` after the boot-disable write: only the latch has changed. -/
def mmuB : Mmu := { mmuA with is_booted := true }

/-- A bus state with working RAM holding 0x34 at address 0xC000 and 0x12 at
0xC001, for the word-read direction facts. -/
def mmuC1 : Mmu :=
  { mmuA with w_ram := fun i => if i = 0 then 0x34 else if i = 1 then 0x12 else 0 }

/-- C1 counterexample: with the byte at 0xC000 being 0x34 and the byte at
0xC001 being 0x12, the 16-bit read at 0xC000 returns 0x3412 — the byte at the
lower address lands in the HIGH half — and not the little-endian combination
0x1234 the claim asserts. -/
theorem C1_counterexample :
    mmuC1.read 0xC000 = some 0x34 ∧ mmuC1.read 0xC001 = some 0x12
      ∧ mmuC1.read_word 0xC000 = some 0x3412
      ∧ ¬ mmuC1.read_word 0xC000 = some (0x34 + 256 * 0x12) :=
  ⟨by decide, by decide, by decide, by decide⟩

/-- C1 (amended): for every address A and bus state, the 16-bit read at A
returns the big-endian combination of its two byte reads — the byte read at
A is the high byte of the result and the byte read at A+1 the low byte. -/
theorem C1_read_word_big_endian :
    ∀ (m : Mmu) (a b1 b2 : Nat), m.read a = some b1 →
      m.read ((a + 1) % 65536) = some b2 → m.read_word a = some (b1 * 256 + b2) := by
  intro m a b1 b2 h1 h2
  unfold Mmu.read_word
  rw [h1, Option.some_bind, h2, Option.map_some']
  rfl

/-- C1 witness: the amended direction at the concrete state. -/
theorem C1_witness : mmuC1.read_word 0xC000 = some 0x3412 :=
  C1_read_word_big_endian mmuC1 0xC000 0x34 0x12 (by decide) (by decide)

/-- C2: for every address A in working RAM below the top word (no tap
boundary crossed) and every 16-bit value W, a 16-bit write of W at A followed
by a 16-bit read at A returns exactly W. -/
theorem C2_word_round_trip :
    ∀ (m : Mmu) (a w : Nat), 0xC000 ≤ a → a ≤ 0xDFFE → w < 65536 →
      (m.write_word a w).bind (fun m2 => m2.read_word a) = some w := by
  intro m a w h1 h2 hw
  unfold Mmu.write_word
  rw [Mmu.write_wram m a _ h1 (by omega),
    show (a + 1) % 65536 = a + 1 from Nat.mod_eq_of_lt (by omega), Option.some_bind,
    Mmu.write_wram _ (a + 1) _ (by omega) (by omega), Option.some_bind]
  unfold Mmu.read_word
  rw [Mmu.read_wram _ a h1 (by omega), Option.some_bind,
    show (a + 1) % 65536 = a + 1 from Nat.mod_eq_of_lt (by omega),
    Mmu.read_wram _ (a + 1) (by omega) (by omega), Option.map_some']
  dsimp only
  rw [if_neg (show ¬(a - 0xC000 = a + 1 - 0xC000) from by omega), if_pos rfl, if_pos rfl]
  unfold bytes_to_word
  congr 1
  omega

/-- C2 witness: writing 0x1234 at 0xC000 then reading it back. -/
theorem C2_witness :
    (mmuA.write_word 0xC000 0x1234).bind (fun m2 => m2.read_word 0xC000) = some 0x1234 :=
  C2_word_round_trip mmuA 0xC000 0x1234 (by decide) (by decide) (by decide)

/-- C3: a 16-bit write is exactly two byte writes through the full bus write
path, the high byte `(value >> 8) as u8` first at A, then the low byte
`value as u8` at A+1; observed concretely in working RAM, the cell at A ends
holding the high byte and the cell at A+1 the low byte. -/
theorem C3_write_word_order :
    (∀ (m : Mmu) (a w : Nat),
        m.write_word a w =
          (m.write a (w / 256 % 256)).bind fun m1 => m1.write ((a + 1) % 65536) (w % 256))
      ∧ (∀ (m : Mmu) (a w : Nat) (m' : Mmu), 0xC000 ≤ a → a ≤ 0xDFFE →
          m.write_word a w = some m' →
            m'.w_ram (a - 0xC000) = w / 256 % 256 ∧ m'.w_ram (a + 1 - 0xC000) = w % 256) := by
  constructor
  · intro m a w
    rfl
  · intro m a w m' h1 h2 h3
    unfold Mmu.write_word at h3
    rw [Mmu.write_wram m a _ h1 (by omega),
      show (a + 1) % 65536 = a + 1 from Nat.mod_eq_of_lt (by omega), Option.some_bind,
      Mmu.write_wram _ (a + 1) _ (by omega) (by omega)] at h3
    injection h3 with h3
    subst h3
    dsimp only
    constructor
    · rw [if_neg (show ¬(a - 0xC000 = a + 1 - 0xC000) from by omega), if_pos rfl]
    · rw [if_pos rfl]

/-- The state after `mmuA.write_word 0xC000 0x1234`: working RAM holds 0x12
(the high byte) at offset 0 and 0x34 (the low byte) at offset 1. -/
def mmuC3 : Mmu :=
  { mmuA with w_ram := fun i => if i = 1 then 0x34 else if i = 0 then 0x12 else mmuA.w_ram i }

/-- C3 witness: the two byte cells after a concrete word write. -/
theorem C3_witness : mmuC3.w_ram 0 = 0x12 ∧ mmuC3.w_ram 1 = 0x34 := by
  have h := C3_write_word_order.2 mmuA 0xC000 0x1234 mmuC3 (by decide) (by decide) rfl
  exact ⟨h.1, h.2⟩

/-- C6: a byte read anywhere in 0x0000–0x00FF with the boot latch false and
no BIOS store is the fatal `panic!` (no fallback byte); with a BIOS store or
with the latch set, the read always yields a byte. -/
theorem C6_boot_read_panic :
    ∀ (m : Mmu) (a : Nat), a ≤ 0xFF →
      ((m.is_booted = false → m.bios = none → m.read a = none)
        ∧ (m.is_booted = true ∨ m.bios.isSome → (m.read a).isSome)) :=
  fun m a ha =>
    ⟨fun hb hbios => Mmu.read_low_panic m a ha hb hbios,
     fun hb => Mmu.read_isSome m hb a⟩

/-- C6 witness: the concrete panic at 0x50 without BIOS, and the defined
read at 0x50 with a BIOS store present. -/
theorem C6_witness :
    (Mmu.new cart0 gpu0 none).read 0x50 = none ∧ (mmuA.read 0x50).isSome :=
  ⟨(C6_boot_read_panic (Mmu.new cart0 gpu0 none) 0x50 (by decide)).1 rfl rfl,
   (C6_boot_read_panic mmuA 0x50 (by decide)).2 (Or.inr rfl)⟩

/-- C8: a byte read of the keypad address 0xFF00 returns the idle pattern
0xFF in every bus state, whatever was stored there. -/
theorem C8_keypad_read_idle : ∀ m : Mmu, m.read 0xFF00 = some 0xFF :=
  fun _ => rfl

/-- C9: opcode decoding — if the byte at the program counter is 0xCB the
decode is the Extended (CB) opcode of the following byte, otherwise the
Plain (Regular) opcode of the byte itself. -/
theorem C9_read_opcode :
    (∀ (m : Mmu) (pc b2 : Nat), m.read pc = some 0xCB →
        m.read ((pc + 1) % 65536) = some b2 → m.read_opcode pc = some (Opcode.CB b2))
      ∧ (∀ (m : Mmu) (pc b : Nat), m.read pc = some b → b ≠ 0xCB →
        m.read_opcode pc = some (Opcode.Regular b)) := by
  constructor
  · intro m pc b2 hcb h2
    unfold Mmu.read_opcode
    rw [hcb, Option.some_bind, if_pos rfl, h2, Option.map_some']
  · intro m pc b hb hne
    unfold Mmu.read_opcode
    rw [hb, Option.some_bind, if_neg hne]

/-- A bus state whose working RAM starts with the bytes 0xCB, 0x7C. -/
def mmuC9 : Mmu :=
  { mmuA with w_ram := fun i => if i = 0 then 0xCB else if i = 1 then 0x7C else 0 }

/-- C9 witness: 0xCB followed by 0x7C decodes to Extended(0x7C), and a plain
byte decodes to Regular. -/
theorem C9_witness :
    mmuC9.read_opcode 0xC000 = some (Opcode.CB 0x7C)
      ∧ mmuC9.read_opcode 0xC002 = some (Opcode.Regular 0) :=
  ⟨C9_read_opcode.1 mmuC9 0xC000 0x7C (by decide) (by decide),
   C9_read_opcode.2 mmuC9 0xC002 0 (by decide) (by decide)⟩

/-- C4: the boot latch is false at construction; a byte write sets it exactly
when its address is 0xFF50 and no write clears it (so after any sequence of
byte writes from a fresh bus it is set exactly when some write targeted
0xFF50, with cartridge and BIOS unchanged); while it is false a read of
0x0050 returns the BIOS store's byte, and once it is true a read of 0x0050
returns the Cartridge's byte. -/
theorem C4_boot_latch :
    (∀ (c : Cartridge) (g : Gpu) (b : Option Cartridge), (Mmu.new c g b).is_booted = false)
      ∧ (∀ (m : Mmu) (a v : Nat) (m' : Mmu), m.write a v = some m' →
          m'.is_booted = (if a = 0xFF50 then true else m.is_booted)
            ∧ m'.cartridge = m.cartridge ∧ m'.bios = m.bios)
      ∧ (∀ (c : Cartridge) (g : Gpu) (b : Option Cartridge) (ops : List (Nat × Nat))
          (m' : Mmu), (Mmu.new c g b).writes ops = some m' →
            ((m'.is_booted = true ↔ ∃ v, (0xFF50, v) ∈ ops)
              ∧ m'.cartridge = c ∧ m'.bios = b))
      ∧ (∀ (m : Mmu) (bc : Cartridge), m.is_booted = false → m.bios = some bc →
          m.read 0x50 = some (bc.read 0x50))
      ∧ (∀ m : Mmu, m.is_booted = true → m.read 0x50 = some (m.cartridge.read 0x50)) := by
  refine ⟨fun _ _ _ => rfl, Mmu.write_step, ?_, ?_, ?_⟩
  · intro c g b ops m' h
    obtain ⟨hboot, hca, hbi⟩ := Mmu.writes_step ops (Mmu.new c g b) m' h
    refine ⟨?_, hca, hbi⟩
    rw [hboot]
    show (false || ops.any fun p => p.1 == 0xFF50) = true ↔ _
    rw [Bool.false_or, List.any_eq_true]
    constructor
    · rintro ⟨⟨p1, p2⟩, hmem, hp⟩
      have : p1 = 0xFF50 := by simpa using hp
      subst this
      exact ⟨p2, hmem⟩
    · rintro ⟨v, hmem⟩
      exact ⟨(0xFF50, v), hmem, by simp⟩
  · intro m bc hb hbios
    exact Mmu.read_low_bios m 0x50 bc (by omega) hb hbios
  · intro m hb
    exact Mmu.read_low_booted m 0x50 (by omega) hb

/-- C4 witness: the fresh bus, the boot-disable write, the one-element write
sequence, and the 0x0050 reads before and after. -/
theorem C4_witness :
    mmuA.is_booted = false
      ∧ (mmuB.is_booted = (if (0xFF50 : Nat) = 0xFF50 then true else mmuA.is_booted)
          ∧ mmuB.cartridge = mmuA.cartridge ∧ mmuB.bios = mmuA.bios)
      ∧ ((mmuB.is_booted = true ↔ ∃ v, ((0xFF50 : Nat), v) ∈ [((0xFF50 : Nat), (0 : Nat))])
          ∧ mmuB.cartridge = cart0 ∧ mmuB.bios = some bios0)
      ∧ mmuA.read 0x50 = some (bios0.read 0x50)
      ∧ mmuB.read 0x50 = some (mmuB.cartridge.read 0x50) :=
  ⟨C4_boot_latch.1 cart0 gpu0 (some bios0),
   C4_boot_latch.2.1 mmuA 0xFF50 0 mmuB rfl,
   C4_boot_latch.2.2.1 cart0 gpu0 (some bios0) [(0xFF50, 0)] mmuB rfl,
   C4_boot_latch.2.2.2.1 mmuA bios0 rfl rfl,
   C4_boot_latch.2.2.2.2 mmuB rfl⟩

/-- C7 counterexample: a write to the boot-disable address 0xFF50 sets the
latch but does NOT store the raw byte in the generic I/O block — the 0xFF50
arm of `Mmu::write` is matched before the I/O arm, so the block still holds
0 at offset 0x50, not the written 0xAB. -/
theorem C7_counterexample :
    (mmuA.write 0xFF50 0xAB).map (fun mm => mm.is_booted) = some true
      ∧ (mmuA.write 0xFF50 0xAB).map (fun mm => mm.io 0x50) = some 0
      ∧ ¬ (mmuA.write 0xFF50 0xAB).map (fun mm => mm.io 0x50) = some 0xAB :=
  ⟨rfl, rfl, by decide⟩

/-- C7 (amended): the named write taps dispatched inside the 0xFF00–0xFF7E
I/O arm (keypad 0xFF00, LCD control 0xFF40, scroll-Y 0xFF42, scroll-X 0xFF43,
background palette 0xFF47, DMA trigger 0xFF46) perform their special effect
and additionally store the raw byte in the generic I/O block; the
boot-disable address 0xFF50, matched by its own arm before the I/O arm, only
sets the boot latch and stores nothing. -/
theorem C7_io_taps :
    (∀ (m : Mmu) (v : Nat) (m' : Mmu), m.write 0xFF00 v = some m' →
        m'.io 0x00 = v ∧ m'.keypad = v)
      ∧ (∀ (m : Mmu) (v : Nat) (m' : Mmu), m.write 0xFF40 v = some m' →
        m'.io 0x40 = v ∧ m'.gpu.lcdc = v)
      ∧ (∀ (m : Mmu) (v : Nat) (m' : Mmu), m.write 0xFF42 v = some m' →
        m'.io 0x42 = v ∧ m'.gpu.scroll_y = v)
      ∧ (∀ (m : Mmu) (v : Nat) (m' : Mmu), m.write 0xFF43 v = some m' →
        m'.io 0x43 = v ∧ m'.gpu.scroll_x = v)
      ∧ (∀ (m : Mmu) (v : Nat) (m' : Mmu), m.write 0xFF47 v = some m' →
        m'.io 0x47 = v ∧ m'.gpu.bgpal = v)
      ∧ (∀ (m : Mmu) (v : Nat) (m' : Mmu), m.write 0xFF46 v = some m' → m'.io 0x46 = v)
      ∧ (∀ (m : Mmu) (v : Nat), m.write 0xFF50 v = some { m with is_booted := true }) := by
  refine ⟨?_, ?_, ?_, ?_, ?_, ?_, fun m v => rfl⟩
  · intro m v m' h
    injection h with h
    subst h
    exact ⟨rfl, rfl⟩
  · intro m v m' h
    injection h with h
    subst h
    exact ⟨rfl, rfl⟩
  · intro m v m' h
    injection h with h
    subst h
    exact ⟨rfl, rfl⟩
  · intro m v m' h
    injection h with h
    subst h
    exact ⟨rfl, rfl⟩
  · intro m v m' h
    injection h with h
    subst h
    exact ⟨rfl, rfl⟩
  · intro m v m' h
    rw [Mmu.write_ff46] at h
    obtain ⟨mm, _, hfm⟩ := Option.map_eq_some'.mp h
    subst hfm
    show (if (0x46 : Nat) = 0x46 then v else mm.io 0x46) = v
    rw [if_pos rfl]

/-- `mmuA` after a write of 0x5A to the scroll-Y tap 0xFF42. -/
def mmuC7 : Mmu :=
  { mmuA with
    gpu := { mmuA.gpu with scroll_y := 0x5A },
    io := fun i => if i = 0x42 then 0x5A else mmuA.io i }

/-- The concrete write equation behind the C7 witness. -/
lemma rfl_write_c7 : mmuA.write 0xFF42 0x5A = some mmuC7 := rfl

/-- C7 witness: the scroll-Y tap both forwards to the GPU field and stores
the raw byte in the I/O block. -/
theorem C7_witness : mmuC7.io 0x42 = 0x5A ∧ mmuC7.gpu.scroll_y = 0x5A :=
  C7_io_taps.2.2.1 mmuA 0x5A mmuC7 rfl_write_c7

/-- C5: writing V to the DMA trigger 0xFF46 copies 160 bytes — for every
offset below 160 the final OAM cell 0xFE00+off holds exactly the byte the
generic bus read path yields at V*256+off (stated for every byte V whose
source block does not overlap the OAM routing range, under panic-free
reads); in particular a write of 0x80 copies the GPU video-RAM bytes at
0x8000–0x809F into OAM 0xFE00–0xFE9F byte-for-byte, unconditionally. -/
theorem C5_dma_transfer :
    (∀ (m : Mmu) (v : Nat), v < 256 → v ≠ 0xFE →
        (m.is_booted = true ∨ m.bios.isSome) →
        ∃ m', m.write 0xFF46 v = some m'
          ∧ ∀ off, off < 160 → some (m'.gpu.oam (0xFE00 + off)) = m.read (v * 256 + off))
      ∧ (∀ m : Mmu,
        ∃ m', m.write 0xFF46 0x80 = some m'
          ∧ ∀ off, off < 160 → m'.gpu.oam (0xFE00 + off) = m.gpu.vram (0x8000 + off)) := by
  constructor
  · intro m v hv hne hb
    have hsrc : ∀ off, off < 160 →
        (v * 256 + off < 0xFE00 ∨ 0xFE9E < v * 256 + off) := by
      intro off hoff
      omega
    have hok : ∀ off, off < 160 → (m.read (v * 256 + off)).isSome :=
      fun off _ => Mmu.read_isSome m hb _
    obtain ⟨mt, hdma, _, hcopy⟩ := Mmu.dma_transfer_spec m v hsrc hok
    refine ⟨{ mt with io := fun i => if i = 0x46 then v else mt.io i }, ?_, ?_⟩
    · rw [Mmu.write_ff46, hdma, Option.map_some']
    · intro off hoff
      exact hcopy off hoff
  · intro m
    have hsrc : ∀ off, off < 160 →
        ((0x80 : Nat) * 256 + off < 0xFE00 ∨ 0xFE9E < 0x80 * 256 + off) := by
      intro off hoff
      omega
    have hok : ∀ off, off < 160 → (m.read (0x80 * 256 + off)).isSome := by
      intro off hoff
      rw [Mmu.read_vram_range m _ (by omega) (by omega)]
      rfl
    obtain ⟨mt, hdma, _, hcopy⟩ := Mmu.dma_transfer_spec m 0x80 hsrc hok
    refine ⟨{ mt with io := fun i => if i = 0x46 then 0x80 else mt.io i }, ?_, ?_⟩
    · rw [Mmu.write_ff46, hdma, Option.map_some']
    · intro off hoff
      have h := hcopy off hoff
      rw [Mmu.read_vram_range m _ (by omega) (by omega)] at h
      exact Option.some_injective _ h

/-- C5 witness: the general direction at V = 0x10 on the concrete bus
(source 0x1000 reads the cartridge through the generic path). -/
theorem C5_witness :
    (mmuA.write 0xFF46 0x10).map (fun mm => mm.gpu.oam 0xFE00) = mmuA.read 0x1000 := by
  obtain ⟨m', hw, hcopy⟩ := C5_dma_transfer.1 mmuA 0x10 (by decide) (by decide) (Or.inr rfl)
  rw [hw, Option.map_some']
  exact hcopy 0 (by decide)

/-- C10: address 0xFE9F is unreachable through the bus — a direct write to
it matches no arm and returns the state unchanged, a direct read returns 0
(not OAM contents, the OAM routing arm ends at 0xFE9E) — yet the DMA
transfer's 160th iteration writes OAM cell 0xFE9F through the GPU's OAM
writer with the byte read at source offset 159. -/
theorem C10_fe9f_only_via_dma :
    (∀ (m : Mmu) (v : Nat), m.write 0xFE9F v = some m)
      ∧ (∀ m : Mmu, m.read 0xFE9F = some 0)
      ∧ (∀ m : Mmu, ∃ m', m.write 0xFF46 0x80 = some m'
          ∧ some (m'.gpu.oam 0xFE9F) = m.read (0x80 * 256 + 159)) := by
  refine ⟨fun m v => rfl, fun m => rfl, ?_⟩
  intro m
  have hsrc : ∀ off, off < 160 →
      ((0x80 : Nat) * 256 + off < 0xFE00 ∨ 0xFE9E < 0x80 * 256 + off) := by
    intro off hoff
    omega
  have hok : ∀ off, off < 160 → (m.read (0x80 * 256 + off)).isSome := by
    intro off hoff
    rw [Mmu.read_vram_range m _ (by omega) (by omega)]
    rfl
  obtain ⟨mt, hdma, _, hcopy⟩ := Mmu.dma_transfer_spec m 0x80 hsrc hok
  refine ⟨{ mt with io := fun i => if i = 0x46 then 0x80 else mt.io i }, ?_, ?_⟩
  · rw [Mmu.write_ff46, hdma, Option.map_some']
  · exact hcopy 159 (by omega)
